import Mathlib

/-!
Verification of the DataHawk trading pipeline archive.

Each namespace `F<nnnnnn>` embeds one Python snapshot of the repository,
named after the numeric prefix of its file:

* `F141829` — `2026-01-02/Проверка_кода_DataHawk/141829_data_hawk.py`
  (`DataHawk.collect_all`, `DataHawk._merge_and_clean`, `BinanceSource.fetch`)
* `F214203` — `2026-01-03/…/214203_….py`
  (`PredictionEngine._format_data`, `StrategyInterface.get_signal`)
* `F214840` — `2026-01-03/Проверка_кода_DataHawk/214840_code_214840.py`
  (`DataHawkPredictor.forecast`, `DataHawkMonitor.check_health`)
* `F215016` — `2026-01-03/Добавление_функции_прогнозирования_цен/215016_data_hawk.py`
  (`DataHawkPredictor.run_inference`, `DataHawkPredictor._prepare_dataframe`)
* `F215224` — `2026-01-03/…/215224_….py`
  (`DataHawkCore.process_cycle`, `DataHawkOptimizer.get_trading_signal`)

Python floats are embedded as `ℚ`; timestamps as `Int` (seconds).  Python
float division by zero raises `ZeroDivisionError`, so fallible arithmetic
is embedded in `Except PyErr`.
-/

/-- Exceptions that the embedded Python code can raise. -/
inductive PyErr where
  | zeroDivisionError
  | keyError
  | indexError
  | valueError
  | typeError
  | generic
  deriving DecidableEq, Repr

/-- Equality of embedded fallible results is decidable. -/
instance {ε α : Type} [DecidableEq ε] [DecidableEq α] :
    DecidableEq (Except ε α) := fun x y =>
  match x, y with
  | .ok a, .ok b =>
      if h : a = b then isTrue (by rw [h])
      else isFalse fun hc => h (by injection hc)
  | .error a, .error b =>
      if h : a = b then isTrue (by rw [h])
      else isFalse fun hc => h (by injection hc)
  | .ok _, .error _ => isFalse fun hc => Except.noConfusion hc
  | .error _, .ok _ => isFalse fun hc => Except.noConfusion hc

/-- Python `round(x, n)`: round to `n` decimal digits, ties to even
(banker's rounding), on the exact rational value. -/
def pyRound (n : Nat) (x : ℚ) : ℚ :=
  let m : ℚ := (10 : ℚ) ^ n
  let y := x * m
  let f : Int := ⌊y⌋
  let frac := y - (f : ℚ)
  let r : Int :=
    if frac < 1 / 2 then f
    else if frac > 1 / 2 then f + 1
    else if f % 2 = 0 then f else f + 1
  (r : ℚ) / m

namespace F141829

/-- The cells of one DataFrame row: the numeric columns in positional
order, `none` embedding `NaN`. -/
abbrev Cells : Type := List (Option ℚ)

/-- One row of a source DataFrame once its timestamp has become the index:
the `Int` is the timestamp index, the `Cells` the row's column values
(for Binance klines: open, high, low, close, volume). -/
abbrev Row : Type := Int × Cells

/-- A DataFrame indexed by timestamp.  The source's frames are
rectangular: every row has one cell per column. -/
abbrev Frame : Type := List Row

/-- `pd.concat(frames, axis=0)`: rows of every frame, in frame order. -/
def pdConcat (frames : List Frame) : Frame :=
  frames.foldr (fun f acc => f ++ acc) []

/-- Helper for `drop_duplicates`: keep a row only if its tuple of column
values (the index does not participate) was not seen in an earlier row.
pandas treats `NaN` cells as equal for this purpose, which
`Option.none = Option.none` reproduces. -/
def dropDupAux (seen : List Cells) : Frame → Frame
  | [] => []
  | r :: rs =>
      if r.2 ∈ seen then dropDupAux seen rs
      else r :: dropDupAux (r.2 :: seen) rs

/-- `DataFrame.drop_duplicates()` with the default `keep='first'`:
deduplicate by the tuple of column values, first occurrence wins. -/
def drop_duplicates (f : Frame) : Frame := dropDupAux [] f

/-- The comparison `sort_index` sorts by: the timestamp index. -/
def rowLE (a b : Row) : Prop := a.1 ≤ b.1

instance : DecidableRel rowLE := fun a b => inferInstanceAs (Decidable (a.1 ≤ b.1))

instance : IsTotal Row rowLE := ⟨fun a b => Int.le_total a.1 b.1⟩

instance : IsTrans Row rowLE := ⟨fun _ _ _ h h2 => le_trans h h2⟩

/-- `DataFrame.sort_index()`: sort rows ascending by the timestamp index
(modelled with an insertion sort; pandas does not promise stability of
equal-index rows in its default sort). -/
def sort_index (f : Frame) : Frame := List.insertionSort rowLE f

/-- One step of column-wise forward fill: each undefined cell is replaced
by the carried cell for its column; cells beyond the carry's width pass
through (the initial carry at the top of the frame is empty, so the first
row is unchanged). -/
def ffillRow : Cells → Cells → Cells
  | _, [] => []
  | [], v :: vs => v :: ffillRow [] vs
  | c :: cs, v :: vs =>
      (match v with | some x => some x | none => c) :: ffillRow cs vs

/-- `DataFrame.fillna(method='ffill')`: replace each undefined cell by the
most recent defined cell above it in the same column, with no limit on
how far back that cell lies.  The carry for the next row is the filled
row itself — exactly the last defined value seen in each column. -/
def ffill (carry : Cells) : Frame → Frame
  | [] => []
  | (t, row) :: rs =>
      let filled := ffillRow carry row
      (t, filled) :: ffill filled rs

/-- `DataFrame.dropna()`: drop the rows that still hold an undefined cell. -/
def dropna (f : Frame) : Frame := f.filter fun r => r.2.all (·.isSome)

/-- `DataHawk._merge_and_clean(frames)`: concatenate, `drop_duplicates()`
(by row values), `sort_index()`, then `fillna(method='ffill').dropna()`.
The source frames carry the timestamp as their index (as produced by
`BinanceSource._parse`), so the `'timestamp' in combined.columns` branch
of the source is not taken. -/
def merge_and_clean (frames : List Frame) : Frame :=
  dropna (ffill [] (sort_index (drop_duplicates (pdConcat frames))))

/-- The filter in `collect_all`'s comprehension: keep a gathered result
only if it is a DataFrame (not a raised exception) and not empty. -/
def keepValid : Except PyErr Frame → Option Frame
  | .ok df => if df.isEmpty then none else some df
  | .error _ => none

/-- `DataHawk.collect_all()`: the per-source results after
`asyncio.gather(…, return_exceptions=True)` — an exception value for a
fetch that raised, a frame otherwise.  Keep the results that are
DataFrames and non-empty; if none remain return an empty frame, else
merge and clean. -/
def collect_all (results : List (Except PyErr Frame)) : Frame :=
  let valid := results.filterMap keepValid
  if valid.isEmpty then [] else merge_and_clean valid

/-- One parsed Binance kline row as `BinanceSource._parse` shapes it:
the timestamp (converted with `pd.to_datetime(…, unit='ms')`) as the
index, plus the numeric columns open/high/low/close/volume coerced with
`pd.to_numeric(errors='coerce')` (unparseable → `NaN` → `none`). -/
abbrev KlineRow : Type := Row

/-- The outcome of the HTTP interaction inside `BinanceSource.fetch`:
either the request/read raised (timeout, transport error), or a response
with a status code arrived whose body either parses as JSON or raises. -/
inductive FetchResponse where
  | netError
  | status (code : Nat) (body : Except PyErr (List KlineRow))

/-- The body of `BinanceSource.fetch`'s `try` block: a raised network
error propagates, a non-200 status returns an empty frame, a 200 status
has its JSON body read (which may raise) and parsed. -/
def fetchBody : FetchResponse → Except PyErr Frame
  | .netError => .error .generic
  | .status code body =>
      if code ≠ 200 then .ok []
      else match body with
        | .error e => .error e
        | .ok raw => .ok raw

/-- `BinanceSource.fetch`: the `try` body with `except Exception` mapping
any raise to an empty frame. -/
def fetch (resp : FetchResponse) : Frame :=
  match fetchBody resp with
  | .ok f => f
  | .error _ => []

end F141829

namespace F214203

/-- One pandas cell: `NaN`/`NaT`, a float, a datetime instant, or text. -/
inductive Cell where
  | na
  | num (q : ℚ)
  | dt (t : Int)
  | txt (s : String)
  deriving DecidableEq, Repr

/-- `pd.to_datetime` on one cell: `NaN` becomes `NaT`, numbers are read as
epoch instants, datetimes pass through, and a text cell models a value the
parser rejects (raising, as `pd.to_datetime` does with `errors='raise'`). -/
def to_datetime_cell : Cell → Except PyErr Cell
  | .na => .ok .na
  | .num q => .ok (.dt ⌊q⌋)
  | .dt t => .ok (.dt t)
  | .txt _ => .error .valueError

/-- `pd.to_datetime` on a whole column. -/
def to_datetime_col (cells : List Cell) : Except PyErr (List Cell) :=
  cells.mapM to_datetime_cell

/-- A DataFrame for `PredictionEngine._format_data`: named columns in
positional order, and a `DatetimeIndex` (`some` instants) or a
non-datetime index (`none`). -/
structure PdFrame where
  cols : List (String × List Cell)
  index : Option (List Int)

/-- The column names, in positional order. -/
def PdFrame.colNames (df : PdFrame) : List String := df.cols.map (·.1)

/-- `df.rename(columns={old: new})`. -/
def PdFrame.rename (df : PdFrame) (old new : String) : PdFrame :=
  { df with cols := df.cols.map fun c => (if c.1 = old then new else c.1, c.2) }

/-- `df[name] = cells`: overwrite the column if present, else append it. -/
def PdFrame.assign (df : PdFrame) (name : String) (cells : List Cell) : PdFrame :=
  if df.colNames.contains name then
    { df with cols := df.cols.map fun c => if c.1 = name then (c.1, cells) else c }
  else
    { df with cols := df.cols ++ [(name, cells)] }

/-- `df.iloc[:, i]`: the column at position `i`, raising `IndexError` when
the frame has no such column. -/
def PdFrame.ilocCol (df : PdFrame) (i : Nat) : Except PyErr (List Cell) :=
  match df.cols.get? i with
  | some c => .ok c.2
  | none => .error .indexError

/-- `df.find` a named column. -/
def PdFrame.getCol (df : PdFrame) (name : String) : Option (List Cell) :=
  (df.cols.find? fun c => c.1 = name).map (·.2)

/-- The rows of `df[['ds','y']].dropna()`: pair the two columns and drop
every row in which either cell is undefined. -/
def selectDsY (ds y : List Cell) : List (Cell × Cell) :=
  (ds.zip y).filter fun p => decide (p.1 ≠ Cell.na) && decide (p.2 ≠ Cell.na)

/-- `PredictionEngine._format_data(data)`: detect the timestamp field
(`'timestamp'` column, else — when the index is not a `DatetimeIndex` —
`pd.to_datetime` of the first column, else the index) and the value field
(`'price'` column, else `'close'` column, else the second column of the
frame as it stands at that point), then return `df[['ds','y']].dropna()`
as (ds, y) rows.  The `isinstance` guard is enforced by typing. -/
def format_data (data : PdFrame) : Except PyErr (List (Cell × Cell)) :=
  let step1 : Except PyErr PdFrame :=
    if data.colNames.contains "timestamp" then .ok (data.rename "timestamp" "ds")
    else
      match data.index with
      | none =>
          match data.ilocCol 0 with
          | .error e => .error e
          | .ok c0 =>
              match to_datetime_col c0 with
              | .error e => .error e
              | .ok dsCells => .ok (data.assign "ds" dsCells)
      | some idx => .ok (data.assign "ds" (idx.map Cell.dt))
  match step1 with
  | .error e => .error e
  | .ok df1 =>
    let step2 : Except PyErr PdFrame :=
      if df1.colNames.contains "price" then .ok (df1.rename "price" "y")
      else if df1.colNames.contains "close" then .ok (df1.rename "close" "y")
      else
        match df1.ilocCol 1 with
        | .error e => .error e
        | .ok c1 => .ok (df1.assign "y" c1)
    match step2 with
    | .error e => .error e
    | .ok df2 =>
      match df2.getCol "ds", df2.getCol "y" with
      | some ds, some y => .ok (selectDsY ds y)
      | _, _ => .error .keyError

/-- A row of a Prophet forecast frame as `StrategyInterface.get_signal`
reads it: the point estimate and the confidence bounds. -/
structure FcRow where
  yhat : ℚ
  yhat_lower : ℚ
  yhat_upper : ℚ
  deriving DecidableEq, Repr

/-- `PredictionEngine.generate_forecast(data)`: format the data, fit the
external Prophet model and predict (`modelOut` is that opaque outcome);
`except Exception` maps any raise to an empty frame. -/
def generate_forecast (data : PdFrame) (modelOut : Except PyErr (List FcRow)) :
    List FcRow :=
  match format_data data with
  | .error _ => []
  | .ok _ =>
      match modelOut with
      | .error _ => []
      | .ok fc => fc

/-- Whether an `Except` computation succeeded. -/
def exceptOk {ε α : Type} : Except ε α → Bool
  | .ok _ => true
  | .error _ => false

/-- Whether the frame has a first column that `pd.to_datetime` accepts. -/
def firstColParseable (df : PdFrame) : Bool :=
  match df.ilocCol 0 with
  | .ok c0 => exceptOk (to_datetime_col c0)
  | .error _ => false

/-- A timestamp-capable field is resolvable (spec §4.3 detection order):
an explicit `'timestamp'` column, or a `DatetimeIndex`, or a first column
that `pd.to_datetime` accepts. -/
def tsResolvable (df : PdFrame) : Bool :=
  df.colNames.contains "timestamp" || df.index.isSome || firstColParseable df

/-- A value field is resolvable (spec §4.3 detection order): an explicit
`'price'`/`'close'` column, or a second column to fall back to. -/
def valueResolvable (df : PdFrame) : Bool :=
  df.colNames.contains "price" || df.colNames.contains "close" ||
    decide (2 ≤ df.cols.length)

/-- The value `StrategyInterface.get_signal` returns: the bare
`{"action": "HOLD", "confidence": 0}` dictionary on an empty forecast, or
the full signal record. -/
inductive SignalResult where
  | holdEmpty (confidence : ℚ)
  | signal (action : String) (current_price predicted_price : ℚ)
      (expected_change_pct : ℚ) (range_lower range_upper : ℚ)
  deriving DecidableEq, Repr

/-- `StrategyInterface.get_signal(current_price, forecast)`: empty
forecast gives the bare HOLD dictionary; otherwise the last forecast row
is the target, `price_change = (predicted − current) / current` (Python
float division raises `ZeroDivisionError` on a zero divisor), the action
is chosen by `> buy_threshold`, then `< -sell_threshold`, else HOLD, and
the record's prices and bounds are rounded to 8 decimal places while
`expected_change_pct` is `round(price_change * 100, 2)`. -/
def get_signal (buy_threshold sell_threshold : ℚ) (current_price : ℚ)
    (forecast : List FcRow) : Except PyErr SignalResult :=
  match forecast.getLast? with
  | none => .ok (.holdEmpty 0)
  | some prediction =>
      if current_price = 0 then .error .zeroDivisionError
      else
        let price_change := (prediction.yhat - current_price) / current_price
        let action :=
          if price_change > buy_threshold then "BUY"
          else if price_change < -sell_threshold then "SELL"
          else "HOLD"
        .ok (.signal action (pyRound 8 current_price) (pyRound 8 prediction.yhat)
          (pyRound 2 (price_change * 100))
          (pyRound 8 prediction.yhat_lower) (pyRound 8 prediction.yhat_upper))

end F214203

namespace F215224

/-- The input DataFrame as `DataHawkCore.process_cycle` inspects it: the
`'price'` column when present (cells are floats, `none` embedding `NaN`),
and whether `pd.to_datetime` of the `'timestamp'` column / index inside
`DataHawkPredictor._prepare_dataframe` succeeds.  Row count equals the
price column's length when that column exists. -/
structure HawkFrame where
  priceCol : Option (List (Option ℚ))
  tsOk : Bool

/-- `DataHawkMonitor.is_data_valid(data)`: false when the frame is empty
or lacks a `'price'` column or that column holds any null; true
otherwise. -/
def is_data_valid (data : HawkFrame) : Bool :=
  match data.priceCol with
  | none => false
  | some vals => !vals.isEmpty && vals.all (·.isSome)

/-- `DataHawkPredictor.run_forecast(data)`: `_prepare_dataframe` raises
`KeyError` without a `'price'` column and propagates a `to_datetime`
failure; then the external Prophet fit/predict runs (`modelOut` is that
opaque outcome, its rows reduced to the `yhat` column `process_cycle`
reads); `except Exception` maps any raise to an empty frame. -/
def run_forecast (data : HawkFrame) (modelOut : Except PyErr (List ℚ)) :
    List ℚ :=
  match
    (if data.priceCol.isNone then .error PyErr.keyError
     else if !data.tsOk then .error PyErr.valueError
     else modelOut : Except PyErr (List ℚ)) with
  | .ok fc => fc
  | .error _ => []

/-- `DataHawkOptimizer.get_trading_signal(current_price, predicted_price,
threshold)`: `expected_change = (predicted − current) / current` (Python
float division raises `ZeroDivisionError` on a zero divisor), then
`> threshold` gives BUY, `< -threshold` gives SELL, else HOLD. -/
def get_trading_signal (current_price predicted_price : ℚ)
    (threshold : ℚ) : Except PyErr String :=
  if current_price = 0 then .error .zeroDivisionError
  else
    let expected_change := (predicted_price - current_price) / current_price
    if expected_change > threshold then .ok "BUY"
    else if expected_change < -threshold then .ok "SELL"
    else .ok "HOLD"

/-- The dictionary `DataHawkCore.process_cycle` returns on success. -/
structure TradeRecord where
  signal : String
  current_price : ℚ
  predicted_price : ℚ
  forecast_df : List ℚ
  deriving DecidableEq, Repr

/-- The `try` body of `DataHawkCore.process_cycle`: validation gate, then
forecast, then signal.  The two `throw` branches after validation are
unreachable — `is_data_valid` has already rejected an empty or
NaN-bearing price column — but embed `iloc[-1]`'s raise on an empty
column so the translation stays total and honest. -/
def process_cycle_body (data : HawkFrame) (modelOut : Except PyErr (List ℚ)) :
    Except PyErr (Option TradeRecord) :=
  if !is_data_valid data then .ok none
  else
    let forecast := run_forecast data modelOut
    if forecast.isEmpty then .ok none
    else
      match data.priceCol with
      | none => .error PyErr.keyError
      | some vals =>
        match vals.getLast? with
        | none => .error PyErr.indexError
        | some none => .error PyErr.typeError
        | some (some current_price) =>
          match forecast.getLast? with
          | none => .error PyErr.indexError
          | some predicted_price =>
            -- the call site uses the default threshold 0.015
            match get_trading_signal current_price predicted_price (15 / 1000) with
            | .error e => .error e
            | .ok signal =>
                .ok (some
                  { signal := signal, current_price := current_price,
                    predicted_price := predicted_price, forecast_df := forecast })

/-- `DataHawkCore.process_cycle(data)`: the body above with its
`except Exception` handler, which logs and returns `None`. -/
def process_cycle (data : HawkFrame) (modelOut : Except PyErr (List ℚ)) :
    Option TradeRecord :=
  match process_cycle_body data modelOut with
  | .ok r => r
  | .error _ => none

end F215224

namespace F214840

/-- A row of the frame `DataHawkPredictor.forecast` returns after its
column selection `[['ds','yhat','yhat_lower','yhat_upper']]`. -/
structure FcRow where
  ds : Int
  yhat : ℚ
  yhat_lower : ℚ
  yhat_upper : ℚ
  deriving DecidableEq, Repr

/-- The largest element of a list of instants (`history_dates.max()`). -/
def histMax (l : List Int) : Int := l.foldl max (l.headD 0)

/-- The `i`-th (0-based) future instant generated by
`make_future_dataframe`: the last history date plus `i + 1` frequency
steps. -/
def futureDate (histDs : List Int) (freq : Int) (i : Nat) : Int :=
  histMax histDs + freq * ((i : Int) + 1)

/-- `Prophet.make_future_dataframe(periods)` with `include_history=True`:
the model's sorted, deduplicated history dates followed by `periods`
future instants at multiples of the frequency step `freq` beyond the last
history date. -/
def make_future_dataframe (histDs : List Int) (freq : Int) (periods : Nat) :
    List Int :=
  (List.insertionSort (· ≤ ·) histDs).dedup ++
    (List.range periods).map (futureDate histDs freq)

/-- `Prophet.predict(future)`: one output row per future-frame instant, in
order; the fitted model's numbers are opaque, supplied by `yhats`. -/
def predict (yhats : Int → ℚ × ℚ × ℚ) (future : List Int) : List FcRow :=
  future.map fun d =>
    { ds := d, yhat := (yhats d).1, yhat_lower := (yhats d).2.1,
      yhat_upper := (yhats d).2.2 }

/-- The success path of `DataHawkPredictor.forecast(data)` after
`_prepare_dataframe` has produced the history instants `histDs`: fit,
build the future frame, predict, and return the selected columns of the
**whole** predicted frame — history rows included, with no `tail`. -/
def forecast (histDs : List Int) (freq : Int) (periods : Nat)
    (yhats : Int → ℚ × ℚ × ℚ) : List FcRow :=
  predict yhats (make_future_dataframe histDs freq periods)

/-- The health record `DataHawkMonitor.check_health` returns. -/
structure Health where
  is_empty : Bool
  has_nans : Bool
  staleness : Bool
  deriving DecidableEq, Repr

/-- A frame as `check_health` inspects it: a datetime index and cells. -/
structure MonFrame where
  index : List Int
  cells : List (Option ℚ)

/-- `pandas.Timedelta.seconds`: the seconds **component** of the
normalized timedelta — `0 ≤ seconds < 86400`, i.e. the elapsed seconds
modulo one day — not the total elapsed seconds. -/
def timedeltaSeconds (totalSeconds : Int) : Int := totalSeconds % 86400

/-- `DataHawkMonitor.check_health(df)`: emptiness, any-null, and
`(pd.Timestamp.now() - df.index[-1]).seconds > 300` guarded by
`if not df.empty else True`. -/
def check_health (now : Int) (df : MonFrame) : Health :=
  { is_empty := df.index.isEmpty
    has_nans := df.cells.any (·.isNone)
    staleness :=
      if df.index.isEmpty then true
      else timedeltaSeconds (now - df.index.getLastD 0) > 300 }

end F214840

namespace F215016

/-- `df.tail(n)`: the last `n` rows. -/
def pdTail (n : Nat) (l : List F214840.FcRow) : List F214840.FcRow :=
  l.drop (l.length - n)

/-- `DataHawkPredictor.run_inference(price_data)`'s success path after
`_prepare_dataframe` has produced the history instants `histDs`: fit,
predict over `make_future_dataframe(periods=forecast_days)`, select the
signal columns and keep only `.tail(self.forecast_days)`. -/
def run_inference (histDs : List Int) (freq : Int) (forecast_days : Nat)
    (yhats : Int → ℚ × ℚ × ℚ) : List F214840.FcRow :=
  pdTail forecast_days (F214840.forecast histDs freq forecast_days yhats)

end F215016

/-! ## Helper lemmas about the Aggregator embedding -/

namespace F141829

theorem ffill_map_fst (carry : Cells) (l : Frame) :
    (ffill carry l).map Prod.fst = l.map Prod.fst := by
  induction l generalizing carry with
  | nil => rfl
  | cons a rs ih =>
      obtain ⟨t, row⟩ := a
      simp [ffill, ih]

theorem mem_ffillRow_origin (c v : Cells) (q : ℚ)
    (h : some q ∈ ffillRow c v) : some q ∈ c ∨ some q ∈ v := by
  induction v generalizing c with
  | nil =>
      cases c <;> simp [ffillRow] at h
  | cons x xs ih =>
      cases c with
      | nil =>
          simp only [ffillRow, List.mem_cons] at h
          rcases h with h | h
          · exact Or.inr (h ▸ List.mem_cons_self _ _)
          · rcases ih [] h with h1 | h1
            · simp at h1
            · exact Or.inr (List.mem_cons_of_mem _ h1)
      | cons c0 cs =>
          simp only [ffillRow, List.mem_cons] at h
          rcases h with h | h
          · cases x with
            | some y => exact Or.inr (h ▸ List.mem_cons_self _ _)
            | none => exact Or.inl (h ▸ List.mem_cons_self _ _)
          · rcases ih cs h with h1 | h1
            · exact Or.inl (List.mem_cons_of_mem _ h1)
            · exact Or.inr (List.mem_cons_of_mem _ h1)

theorem mem_ffill_origin (carry : Cells) (l : Frame) (r : Row)
    (hr : r ∈ ffill carry l) (q : ℚ) (hq : some q ∈ r.2) :
    some q ∈ carry ∨ ∃ s ∈ l, some q ∈ s.2 := by
  induction l generalizing carry with
  | nil => simp [ffill] at hr
  | cons a rs ih =>
      obtain ⟨t, row⟩ := a
      simp only [ffill, List.mem_cons] at hr
      rcases hr with hr | hr
      · subst hr
        rcases mem_ffillRow_origin carry row q hq with h | h
        · exact Or.inl h
        · exact Or.inr ⟨(t, row), List.mem_cons_self _ _, h⟩
      · rcases ih (ffillRow carry row) hr with h | h
        · rcases mem_ffillRow_origin carry row q h with h1 | h1
          · exact Or.inl h1
          · exact Or.inr ⟨(t, row), List.mem_cons_self _ _, h1⟩
        · obtain ⟨s, hs, hsq⟩ := h
          exact Or.inr ⟨s, List.mem_cons_of_mem _ hs, hsq⟩

theorem dropDupAux_sublist (seen : List Cells) (l : Frame) :
    List.Sublist (dropDupAux seen l) l := by
  induction l generalizing seen with
  | nil => simp [dropDupAux]
  | cons r rs ih =>
      by_cases h : r.2 ∈ seen
      · simp only [dropDupAux, if_pos h]
        exact (ih seen).cons r
      · simp only [dropDupAux, if_neg h]
        exact (ih (r.2 :: seen)).cons₂ r

theorem dropDupAux_spec (seen : List Cells) (l : Frame) :
    (∀ r ∈ dropDupAux seen l, r.2 ∉ seen) ∧
      List.Pairwise (fun a b : Row => a.2 ≠ b.2) (dropDupAux seen l) := by
  induction l generalizing seen with
  | nil => simp [dropDupAux]
  | cons r rs ih =>
      by_cases h : r.2 ∈ seen
      · simpa only [dropDupAux, if_pos h] using ih seen
      · simp only [dropDupAux, if_neg h]
        obtain ⟨ihmem, ihpw⟩ := ih (r.2 :: seen)
        refine ⟨?_, ?_⟩
        · intro s hs
          rcases List.mem_cons.1 hs with hs | hs
          · exact hs ▸ h
          · exact fun hmem => ihmem s hs (List.mem_cons_of_mem _ hmem)
        · refine List.pairwise_cons.2 ⟨?_, ihpw⟩
          intro s hs heq
          exact ihmem s hs (heq ▸ List.mem_cons_self _ _)

theorem mem_pdConcat (frames : List Frame) (r : Row) :
    r ∈ pdConcat frames ↔ ∃ fr ∈ frames, r ∈ fr := by
  induction frames with
  | nil => simp [pdConcat]
  | cons f fs ih =>
      simp only [pdConcat, List.foldr_cons, List.mem_append] at *
      constructor
      · rintro (h | h)
        · exact ⟨f, List.mem_cons_self _ _, h⟩
        · obtain ⟨fr, hfr, hr⟩ := ih.1 h
          exact ⟨fr, List.mem_cons_of_mem _ hfr, hr⟩
      · rintro ⟨fr, hfr, hr⟩
        rcases List.mem_cons.1 hfr with hfr | hfr
        · exact Or.inl (hfr ▸ hr)
        · exact Or.inr (ih.2 ⟨fr, hfr, hr⟩)

end F141829

/-! ## Claim theorems -/

/-- C2 (counterexample): for the pair of single-row source frames sharing
timestamp 5 but reporting different values, `_merge_and_clean` keeps both
rows — the merged output's timestamps are `[5, 5]`, not strictly unique —
because `drop_duplicates()` deduplicates by row values, not by
timestamp. -/
theorem C2_counterexample :
    (F141829.merge_and_clean [[(5, [some 1])], [(5, [some 2])]]).map Prod.fst
        = [5, 5] ∧
      ¬ List.Pairwise (· < ·)
        ((F141829.merge_and_clean [[(5, [some 1])], [(5, [some 2])]]).map
          Prod.fst) := by
  decide

/-- C2 (amended): the merged output of `_merge_and_clean` is sorted
ascending (not strictly) by timestamp; deduplication is by the tuple of
row values with the first occurrence kept — the deduplicated rows are a
subsequence of the concatenation with pairwise distinct value tuples —
so rows with equal timestamps but different values are all retained. -/
theorem C2_amended (frames : List F141829.Frame) :
    List.Sorted (· ≤ ·) ((F141829.merge_and_clean frames).map Prod.fst) ∧
      List.Pairwise (fun a b : F141829.Row => a.2 ≠ b.2)
        (F141829.drop_duplicates (F141829.pdConcat frames)) ∧
      List.Sublist (F141829.drop_duplicates (F141829.pdConcat frames))
        (F141829.pdConcat frames) := by
  refine ⟨?_, (F141829.dropDupAux_spec [] _).2, F141829.dropDupAux_sublist [] _⟩
  have hs : List.Sorted F141829.rowLE
      (F141829.sort_index (F141829.drop_duplicates (F141829.pdConcat frames))) :=
    List.sorted_insertionSort _ _
  have hs2 : List.Pairwise (· ≤ ·)
      ((F141829.sort_index
        (F141829.drop_duplicates (F141829.pdConcat frames))).map Prod.fst) :=
    List.pairwise_map.2 hs
  have h3 : List.Sublist
      ((F141829.merge_and_clean frames).map Prod.fst)
      ((F141829.ffill []
        (F141829.sort_index
          (F141829.drop_duplicates (F141829.pdConcat frames)))).map Prod.fst) :=
    (List.filter_sublist _).map _
  rw [F141829.ffill_map_fst] at h3
  exact List.Pairwise.sublist h3 hs2

/-- C3 (counterexample): `_merge_and_clean` forward-fills with no bound:
a value gap of three consecutive undefined cells is bridged from the last
defined value and no row is dropped, so no configured `max_fill_gap`
limits the fill (the code has no such parameter). -/
theorem C3_counterexample :
    F141829.merge_and_clean
        [[(0, [some 1, some 10]), (1, [none, some 11]),
          (2, [none, some 12]), (3, [none, some 13])]] =
      [(0, [some 1, some 10]), (1, [some 1, some 11]),
        (2, [some 1, some 12]), (3, [some 1, some 13])] := by
  decide

/-- C3 (amended): after `_merge_and_clean`, every remaining row has all
cells defined (rows still undefined after the unbounded forward fill are
dropped), and every defined value in the output occurs as a value in some
input frame — undefined cells are never replaced by zero or any other
invented constant. -/
theorem C3_amended (frames : List F141829.Frame) :
    (∀ r ∈ F141829.merge_and_clean frames, r.2.all (·.isSome) = true) ∧
      (∀ r ∈ F141829.merge_and_clean frames, ∀ q : ℚ, some q ∈ r.2 →
        ∃ fr ∈ frames, ∃ s ∈ fr, some q ∈ s.2) := by
  constructor
  · intro r hr
    simp only [F141829.merge_and_clean, F141829.dropna] at hr
    exact (List.mem_filter.1 hr).2
  · intro r hr q hq
    simp only [F141829.merge_and_clean, F141829.dropna] at hr
    have hr2 : r ∈ F141829.ffill []
        (F141829.sort_index (F141829.drop_duplicates (F141829.pdConcat frames))) :=
      List.mem_of_mem_filter hr
    rcases F141829.mem_ffill_origin _ _ _ hr2 q hq with h | ⟨s, hs, hsq⟩
    · simp at h
    · have hsD : s ∈ F141829.drop_duplicates (F141829.pdConcat frames) :=
        ((List.perm_insertionSort F141829.rowLE _).mem_iff).1 hs
      have hsC : s ∈ F141829.pdConcat frames :=
        (F141829.dropDupAux_sublist [] _).subset hsD
      obtain ⟨fr, hfr, hrfr⟩ := (F141829.mem_pdConcat frames s).1 hsC
      exact ⟨fr, hfr, s, hrfr, hsq⟩

/-- C7: fetch failures are captured, not propagated.  A raised exception
among the gathered results is omitted without changing the aggregate;
when no source yields a non-empty frame, `collect_all` returns an empty
frame (not an error); and `BinanceSource.fetch` itself maps a network
raise, a non-200 status, and a malformed (raising) payload to an empty
frame. -/
theorem C7_failures_captured :
    (∀ (rs1 rs2 : List (Except PyErr F141829.Frame)) (e : PyErr),
        F141829.collect_all (rs1 ++ .error e :: rs2)
          = F141829.collect_all (rs1 ++ rs2)) ∧
      (∀ results : List (Except PyErr F141829.Frame),
        (∀ r ∈ results, F141829.keepValid r = none) →
          F141829.collect_all results = []) ∧
      F141829.fetch .netError = [] ∧
      (∀ (code : Nat) (body : Except PyErr (List F141829.KlineRow)),
        code ≠ 200 → F141829.fetch (.status code body) = []) ∧
      (∀ (code : Nat) (e : PyErr),
        F141829.fetch (.status code (.error e)) = []) := by
  refine ⟨?_, ?_, rfl, ?_, ?_⟩
  · intro rs1 rs2 e
    have hfm : List.filterMap F141829.keepValid (rs1 ++ .error e :: rs2)
        = List.filterMap F141829.keepValid (rs1 ++ rs2) := by
      simp [List.filterMap_append, List.filterMap_cons, F141829.keepValid]
    simp only [F141829.collect_all, hfm]
  · intro results h
    have hnil : results.filterMap F141829.keepValid = [] :=
      List.filterMap_eq_nil_iff.2 h
    simp [F141829.collect_all, hnil]
  · intro code body hcode
    simp [F141829.fetch, F141829.fetchBody, hcode]
  · intro code e
    by_cases hcode : code = 200
    · subst hcode
      simp [F141829.fetch, F141829.fetchBody]
    · simp [F141829.fetch, F141829.fetchBody, hcode]

/-- C7 (witness): the parts of `C7_failures_captured` instantiated at
concrete inputs — a raised fetch among two results is dropped, an
all-failed gather yields the empty frame, and a 404 response fetches
empty. -/
theorem C7_witness :
    F141829.collect_all
        ([Except.ok [(1, [some 1])]] ++ .error PyErr.generic :: [])
        = F141829.collect_all ([Except.ok [(1, [some 1])]] ++ []) ∧
      F141829.collect_all [Except.error PyErr.generic, Except.ok []] = [] ∧
      F141829.fetch (.status 404 (.ok [(1, [some 1])])) = [] :=
  ⟨C7_failures_captured.1 _ _ _,
    C7_failures_captured.2.1 _ (by decide),
    C7_failures_captured.2.2.2.1 404 _ (by decide)⟩

/-- C4: `StrategyInterface.get_signal` on a non-empty forecast with a
non-zero current price computes `price_change = (yhat − current)/current`
over the last forecast row and applies, in order, `> buy_threshold → BUY`,
`< −sell_threshold → SELL`, else HOLD; `expected_change_pct` is the
percentage of that change (rounded to 2 digits, see C9). -/
theorem C4_decision_rule (bt st cp : ℚ) (fc : List F214203.FcRow)
    (last : F214203.FcRow) (hl : fc.getLast? = some last) (hcp : cp ≠ 0) :
    ∃ cur pred pct lo hi,
      F214203.get_signal bt st cp fc = .ok (.signal
        (if (last.yhat - cp) / cp > bt then "BUY"
         else if (last.yhat - cp) / cp < -st then "SELL" else "HOLD")
        cur pred pct lo hi) ∧
      pct = pyRound 2 ((last.yhat - cp) / cp * 100) := by
  simp only [F214203.get_signal, hl]
  rw [if_neg hcp]
  exact ⟨_, _, _, _, _, rfl, rfl⟩

/-- C4 (witness): `decide(current=100, forecast_last=103, buy=0.015,
sell=0.015)` yields BUY with `expected_change_pct = 3.0`. -/
theorem C4_witness :
    ∃ cur pred pct lo hi,
      F214203.get_signal (15/1000) (15/1000) 100 [⟨103, 101, 105⟩]
        = .ok (.signal "BUY" cur pred pct lo hi) ∧ pct = 3 := by
  obtain ⟨cur, pred, pct, lo, hi, heq, hpct⟩ :=
    C4_decision_rule (15/1000) (15/1000) 100 [⟨103, 101, 105⟩]
      ⟨103, 101, 105⟩ rfl (by norm_num)
  refine ⟨cur, pred, pct, lo, hi, ?_, ?_⟩
  · rw [heq]
    norm_num
  · rw [hpct]
    norm_num [pyRound]

/-- C9 (counterexample): with `current=3` and a last forecast row of
`yhat=4`, the raw change is 1/3 = 33.333…%, and `get_signal` returns
`expected_change_pct = 33.33` — rounded to 2 decimal places by
`round(price_change * 100, 2)`, not to the 8 places the claim states. -/
theorem C9_counterexample :
    F214203.get_signal (15/1000) (15/1000) 3 [⟨4, 0, 0⟩]
        = .ok (.signal "BUY" 3 4 (3333/100) 0 0) ∧
      (3333/100 : ℚ) ≠ pyRound 8 (((4 : ℚ) - 3) / 3 * 100) := by
  constructor
  · simp only [F214203.get_signal, List.getLast?_singleton]
    norm_num [pyRound]
  · norm_num [pyRound]

/-- C9 (amended): `get_signal` rounds `current_price`, `predicted_price`
and both confidence-range bounds to 8 decimal places, but rounds
`expected_change_pct` to 2 decimal places; being a pure function of its
arguments, identical inputs give identical rounded outputs. -/
theorem C9_amended (bt st cp : ℚ) (fc : List F214203.FcRow)
    (last : F214203.FcRow) (hl : fc.getLast? = some last) (hcp : cp ≠ 0) :
    F214203.get_signal bt st cp fc = .ok (.signal
      (if (last.yhat - cp) / cp > bt then "BUY"
       else if (last.yhat - cp) / cp < -st then "SELL" else "HOLD")
      (pyRound 8 cp) (pyRound 8 last.yhat)
      (pyRound 2 ((last.yhat - cp) / cp * 100))
      (pyRound 8 last.yhat_lower) (pyRound 8 last.yhat_upper)) := by
  simp only [F214203.get_signal, hl]
  rw [if_neg hcp]

/-- C9 (witness): the amended rounding shape at a concrete input. -/
theorem C9_witness :
    F214203.get_signal (15/1000) (15/1000) 3 [⟨4, 5, 6⟩]
      = .ok (.signal
        (if ((4 : ℚ) - 3) / 3 > 15/1000 then "BUY"
         else if ((4 : ℚ) - 3) / 3 < -(15/1000) then "SELL" else "HOLD")
        (pyRound 8 3) (pyRound 8 4) (pyRound 2 (((4 : ℚ) - 3) / 3 * 100))
        (pyRound 8 5) (pyRound 8 6)) :=
  C9_amended (15/1000) (15/1000) 3 [⟨4, 5, 6⟩] ⟨4, 5, 6⟩ rfl (by norm_num)

/-- C10: both signal functions divide by `current_price` with no guard:
at `current_price = 0` and a non-empty forecast, `get_signal` raises
`ZeroDivisionError` instead of returning a signal, and so does
`get_trading_signal` for every predicted price and threshold. -/
theorem C10_div_by_zero (bt st : ℚ) (fc : List F214203.FcRow)
    (last : F214203.FcRow) (hl : fc.getLast? = some last) :
    F214203.get_signal bt st 0 fc = .error PyErr.zeroDivisionError ∧
      ∀ pp th : ℚ,
        F215224.get_trading_signal 0 pp th = .error PyErr.zeroDivisionError := by
  constructor
  · simp [F214203.get_signal, hl]
  · intro pp th
    simp [F215224.get_trading_signal]

/-- C10 (witness): the zero-divisor raise at concrete inputs. -/
theorem C10_witness :
    F214203.get_signal (15/1000) (15/1000) 0 [⟨4, 5, 6⟩]
        = .error PyErr.zeroDivisionError ∧
      F215224.get_trading_signal 0 7 (15/1000)
        = .error PyErr.zeroDivisionError := by
  obtain ⟨h1, h2⟩ :=
    C10_div_by_zero (15/1000) (15/1000) [⟨4, 5, 6⟩] ⟨4, 5, 6⟩ rfl
  exact ⟨h1, h2 7 (15/1000)⟩

/-- C5 (code bug): `check_health` computes the staleness flag from
`(now − last).seconds` — the seconds **component** of the timedelta, the
elapsed time modulo one day — so a series whose last point is 1 day and
10 seconds old (86410 s > 300 s) is reported fresh (`staleness = false`),
although the claim (and the monitor's purpose) says any series older than
the 300-second threshold is stale.  The empty-series case does return
`staleness = true` as claimed. -/
theorem C5_bug_seconds_component :
    (F214840.check_health 86410 ⟨[0], [some 1]⟩).staleness = false ∧
      (86410 : Int) - 0 > 300 ∧
      (F214840.check_health 86410 ⟨[], []⟩).staleness = true := by
  decide

namespace F215224

theorem get_trading_signal_cases (cp pp th : ℚ) (s : String)
    (h : get_trading_signal cp pp th = .ok s) :
    s = "BUY" ∨ s = "SELL" ∨ s = "HOLD" := by
  unfold get_trading_signal at h
  by_cases h0 : cp = 0
  · rw [if_pos h0] at h
    simp at h
  · rw [if_neg h0] at h
    simp only [gt_iff_lt] at h
    by_cases h1 : th < (pp - cp) / cp
    · rw [if_pos h1] at h
      exact Or.inl (by injection h with hx; exact hx.symm)
    · rw [if_neg h1] at h
      by_cases h2 : (pp - cp) / cp < -th
      · rw [if_pos h2] at h
        exact Or.inr (Or.inl (by injection h with hx; exact hx.symm))
      · rw [if_neg h2] at h
        exact Or.inr (Or.inr (by injection h with hx; exact hx.symm))

end F215224

/-- C1: for every input DataFrame — empty, price-column-less, or
NaN-bearing — and every outcome of the external model,
`DataHawkCore.process_cycle` returns a well-formed value: either `None`
or a record whose signal is one of BUY/SELL/HOLD; no exception escapes
its boundary (every internal raise is caught by its handler). -/
theorem C1_process_cycle_total (data : F215224.HawkFrame)
    (modelOut : Except PyErr (List ℚ)) :
    F215224.process_cycle data modelOut = none ∨
      ∃ rec, F215224.process_cycle data modelOut = some rec ∧
        (rec.signal = "BUY" ∨ rec.signal = "SELL" ∨ rec.signal = "HOLD") := by
  cases hb : F215224.process_cycle_body data modelOut with
  | error e => exact Or.inl (by simp [F215224.process_cycle, hb])
  | ok r =>
    cases r with
    | none => exact Or.inl (by simp [F215224.process_cycle, hb])
    | some rec =>
      refine Or.inr ⟨rec, by simp [F215224.process_cycle, hb], ?_⟩
      unfold F215224.process_cycle_body at hb
      by_cases hv : (!F215224.is_data_valid data) = true
      · rw [if_pos hv] at hb
        simp at hb
      · rw [if_neg hv] at hb
        by_cases hf : (F215224.run_forecast data modelOut).isEmpty = true
        · rw [if_pos hf] at hb
          simp at hb
        · rw [if_neg hf] at hb
          cases hpc : data.priceCol with
          | none => simp [hpc] at hb
          | some vals =>
            cases hvl : vals.getLast? with
            | none => simp [hpc, hvl] at hb
            | some v =>
              cases v with
              | none => simp [hpc, hvl] at hb
              | some cp =>
                cases hfl : (F215224.run_forecast data modelOut).getLast? with
                | none => simp [hpc, hvl, hfl] at hb
                | some pp =>
                  cases hsig : F215224.get_trading_signal cp pp (15/1000) with
                  | error e => simp [hpc, hvl, hfl, hsig] at hb
                  | ok s =>
                    simp only [hpc, hvl, hfl, hsig, Except.ok.injEq,
                      Option.some.injEq] at hb
                    subst hb
                    exact F215224.get_trading_signal_cases _ _ _ _ hsig

namespace F214840

theorem foldl_max_init_le (l : List Int) (a : Int) : a ≤ l.foldl max a := by
  induction l generalizing a with
  | nil => exact le_refl a
  | cons b t ih => exact le_trans (le_max_left a b) (ih (max a b))

theorem mem_le_foldl_max (l : List Int) (a x : Int) (hx : x ∈ l) :
    x ≤ l.foldl max a := by
  induction l generalizing a with
  | nil => cases hx
  | cons b t ih =>
      have hred : List.foldl max a (b :: t) = List.foldl max (max a b) t := rfl
      rw [hred]
      rcases List.mem_cons.1 hx with h | h
      · rw [h]
        exact le_trans (le_max_right a b) (foldl_max_init_le t (max a b))
      · exact ih (max a b) h

theorem le_histMax (l : List Int) (x : Int) (hx : x ∈ l) : x ≤ histMax l :=
  mem_le_foldl_max l (l.headD 0) x hx

end F214840

theorem tail_of_append {α : Type} (A B : List α) (n : Nat) (h : B.length = n) :
    (A ++ B).drop ((A ++ B).length - n) = B := by
  subst h
  rw [List.length_append, Nat.add_sub_cancel]
  exact List.drop_left A B

/-- C6 (counterexample): `DataHawkPredictor.forecast` (214840 snapshot)
returns the prediction over the **whole** future frame with no `tail`
selection: for a two-point history and `periods = 30` it returns 32 rows,
the first of which carries the historical timestamp 0, not a timestamp
strictly after the last historical point — contradicting "exactly
horizon points, all strictly after the last historical timestamp". -/
theorem C6_counterexample :
    (F214840.forecast [0, 1] 1 30 fun _ => (0, 0, 0)).length = 32 ∧
      ((F214840.forecast [0, 1] 1 30 fun _ => (0, 0, 0)).map
        F214840.FcRow.ds).head? = some 0 := by
  decide

/-- C6 (amended): `DataHawkPredictor.run_inference` (215016 snapshot),
which applies `.tail(self.forecast_days)`, does satisfy the claim: for a
positive frequency step it returns exactly `periods` rows, each with a
timestamp strictly after every historical timestamp, in strictly
ascending order, each carrying the model's point estimate and both
confidence bounds; the 214840 `forecast` instead returns history and
future rows together. -/
theorem C6_amended (histDs : List Int) (freq : Int) (periods : Nat)
    (yhats : Int → ℚ × ℚ × ℚ) (hfreq : 0 < freq) :
    (F215016.run_inference histDs freq periods yhats).length = periods ∧
      (∀ r ∈ F215016.run_inference histDs freq periods yhats,
        (∀ h ∈ histDs, h < r.ds) ∧
          r.yhat = (yhats r.ds).1 ∧ r.yhat_lower = (yhats r.ds).2.1 ∧
          r.yhat_upper = (yhats r.ds).2.2) ∧
      List.Pairwise (· < ·)
        ((F215016.run_inference histDs freq periods yhats).map
          F214840.FcRow.ds) := by
  have key : F215016.run_inference histDs freq periods yhats
      = ((List.range periods).map (F214840.futureDate histDs freq)).map
          fun d => ({ ds := d, yhat := (yhats d).1,
                      yhat_lower := (yhats d).2.1,
                      yhat_upper := (yhats d).2.2 } : F214840.FcRow) := by
    unfold F215016.run_inference F215016.pdTail F214840.forecast
      F214840.predict F214840.make_future_dataframe
    rw [List.map_append]
    exact tail_of_append _ _ _ (by simp)
  refine ⟨?_, ?_, ?_⟩
  · rw [key]
    simp
  · intro r hr
    rw [key] at hr
    simp only [List.mem_map, List.mem_range] at hr
    obtain ⟨d, ⟨i, hi, rfl⟩, rfl⟩ := hr
    refine ⟨?_, rfl, rfl, rfl⟩
    intro h hh
    have h1 : h ≤ F214840.histMax histDs := F214840.le_histMax histDs h hh
    have h2 : 0 < freq * ((i : Int) + 1) :=
      mul_pos hfreq (by exact_mod_cast Nat.succ_pos i)
    show h < F214840.futureDate histDs freq i
    simp only [F214840.futureDate]
    linarith
  · rw [key, List.map_map, List.map_map]
    refine List.Pairwise.map _ ?_ (List.pairwise_lt_range periods)
    intro a b hab
    show F214840.futureDate histDs freq a < F214840.futureDate histDs freq b
    simp only [F214840.futureDate]
    have hmul : freq * ((a : Int) + 1) < freq * ((b : Int) + 1) := by
      apply mul_lt_mul_of_pos_left _ hfreq
      exact_mod_cast Nat.add_lt_add_right hab 1
    linarith

/-- C6 (witness): the amended theorem instantiated at a concrete history,
frequency and horizon. -/
theorem C6_witness :
    (F215016.run_inference [0, 1] 1 3 fun _ => (0, 0, 0)).length = 3 :=
  (C6_amended [0, 1] 1 3 (fun _ => (0, 0, 0)) (by decide)).1

/-- C8: when `_format_data` can resolve neither a timestamp-capable field
(no `'timestamp'` column, no `DatetimeIndex`, no parseable first column)
nor a value field (no `'price'`/`'close'` column, no second column), it
raises — never returning a silently defaulted frame — and the caller
`generate_forecast` reports the failure by returning the empty-frame
failure marker. -/
theorem C8_unresolvable_fields_error (df : F214203.PdFrame)
    (modelOut : Except PyErr (List F214203.FcRow))
    (hts : F214203.tsResolvable df = false)
    (hval : F214203.valueResolvable df = false) :
    (∃ e, F214203.format_data df = .error e) ∧
      F214203.generate_forecast df modelOut = [] := by
  simp only [F214203.tsResolvable, Bool.or_eq_false_iff] at hts
  obtain ⟨⟨hts1, hts2⟩, hts3⟩ := hts
  have hts1m : "timestamp" ∉ df.colNames := by simpa using hts1
  have hidx : df.index = none := Option.not_isSome_iff_eq_none.1 (by simp [hts2])
  have herr : ∃ e, F214203.format_data df = .error e := by
    cases hc0 : df.ilocCol 0 with
    | error e =>
        exact ⟨e, by simp [F214203.format_data, hts1m, hidx, hc0]⟩
    | ok c0 =>
        have hpar : F214203.exceptOk (F214203.to_datetime_col c0) = false := by
          have := hts3
          unfold F214203.firstColParseable at this
          rw [hc0] at this
          exact this
        cases htd : F214203.to_datetime_col c0 with
        | error e =>
            exact ⟨e, by simp [F214203.format_data, hts1m, hidx, hc0, htd]⟩
        | ok out =>
            rw [htd] at hpar
            simp [F214203.exceptOk] at hpar
  obtain ⟨e, he⟩ := herr
  exact ⟨⟨e, he⟩, by simp [F214203.generate_forecast, he]⟩

/-- C8 (witness): a frame with one unparseable column and a non-datetime
index resolves neither field; `_format_data` raises and
`generate_forecast` returns the empty frame. -/
theorem C8_witness :
    (∃ e, F214203.format_data ⟨[("a", [F214203.Cell.txt "x"])], none⟩
        = .error e) ∧
      F214203.generate_forecast ⟨[("a", [F214203.Cell.txt "x"])], none⟩
        (.ok []) = [] :=
  C8_unresolvable_fields_error _ _ (by decide) (by decide)
